import Mathlib

/-!
# Verification of the single-table-dynamodb key codec, query planner and batch planner

Shallow embedding of the repository's TypeScript sources:
* `src/src/getRepository.ts` — key codec (`getCompositeKeyValue`, `dynamoProperty`,
  `padDecimalNumber`, `getSortkeyForBeginsWithQuery`, `getKey`), query planner
  (`findIndexForQuery`), repository facade (`formatForDDB`, `getQueryArgs`, `get`,
  `executeQuery`, `queryOne`).
* `src/dist/single-table-dynamo.esm.js` — configuration builder (`getConfig`,
  `getPrimaryIndex`, `getLSIIndex`, `getGSIIndex`, `getCustomGSIIndex`) and
  `getDataFromDocument`.
* `src/src/mapper.ts` — the Mapper's composite primary key computation.
* The batch planner (`batch-get.ts` / `batch-write.ts`) is not present in the
  source tree; it is modelled from the spec (and constrained by the inline
  snapshots of `src/src/test/integration/batch.test.ts`).

JavaScript values appearing in keys are modelled by `JsVal`: strings, or decimal
numbers given by their integer part and the fractional digit list of their
decimal rendering (`String(v)`), plus a sign flag.  JavaScript objects are
modelled as functions `String → Option JsVal`; `where.args` (whose key list is
enumerated by the planner) is modelled as an association list.
-/

namespace STD

/-- A decimal number as rendered by JavaScript `String(v)` for values printed in
plain positional notation: integer part and the digits after the decimal point
(no trailing zeros in an actual rendering). -/
structure JsNumber where
  int : Nat
  frac : List (Fin 10)
  deriving DecidableEq, Repr

/-- A JavaScript value stored in an object field: a string, or a number
(`neg = true` for negative numbers, which the codec never pads). -/
inductive JsVal where
  | str (s : String)
  | num (neg : Bool) (v : JsNumber)
  deriving DecidableEq, Repr

/-- A JavaScript object, as a partial map from property names to values. -/
def JsObj := String → Option JsVal

deriving instance DecidableEq for Except

/-- The character for a decimal digit (codepoints 48–57). -/
def digitChar (d : Fin 10) : Char := Char.ofNat (48 + d.val)

/-- Fuel-indexed digit extraction (structural recursion so that the kernel can
evaluate it; `natDigits` supplies enough fuel). -/
def natDigitsAux : Nat → Nat → List (Fin 10)
  | 0, _ => []
  | fuel+1, n =>
    if h : n < 10 then [⟨n, h⟩]
    else natDigitsAux fuel (n / 10) ++ [⟨n % 10, Nat.mod_lt n (by omega)⟩]

/-- The decimal digits of `n`, most significant first (`[0]` for `0`), exactly
the characters of JavaScript `String(n)` for a natural number. -/
def natDigits (n : Nat) : List (Fin 10) := natDigitsAux (n + 1) n

/-- The characters of JavaScript `String(n)` for a natural number `n`. -/
def natChars (n : Nat) : List Char := (natDigits n).map digitChar

/-- JavaScript `String(v)` for a `JsNumber` (plain positional rendering). -/
def jsNumString (neg : Bool) (v : JsNumber) : String :=
  String.mk ((if neg then ['-'] else []) ++ natChars v.int
    ++ (if v.frac.isEmpty then [] else '.' :: v.frac.map digitChar))

/-- JavaScript `String(x)` on an optional value: `String(undefined)` is
`"undefined"`. -/
def jsString : Option JsVal → String
  | none => "undefined"
  | some (.str s) => s
  | some (.num neg v) => jsNumString neg v

/-- JavaScript `s.padStart(w, c)`. -/
def jsPadStart (s : List Char) (w : Nat) (c : Char) : List Char :=
  List.replicate (w - s.length) c ++ s

/-- JavaScript `s.padEnd(w, c)`. -/
def jsPadEnd (s : List Char) (w : Nat) (c : Char) : List Char :=
  s ++ List.replicate (w - s.length) c

/-- `padDecimalNumber` of `src/src/getRepository.ts`:
`[(before || '').padStart(18, '0'), (after || '').padEnd(2, '0')].join('.')`
where `before`/`after` are the parts of `String(value)` around `'.'`. -/
def padDecimalNumber (value : JsNumber) : List Char :=
  jsPadStart (natChars value.int) 18 '0' ++ '.' :: jsPadEnd (value.frac.map digitChar) 2 '0'

/-- `dynamoProperty` of `src/src/getRepository.ts`: renders `key + '-' + value`,
padding non-negative numbers when `shouldPadNumbersInIndexes` is set. -/
def dynamoProperty (key : String) (value : Option JsVal) (shouldPadNumbersInIndexes : Bool) :
    String :=
  let stringified := jsString value
  let stringified := match value with
    | some (.num false v) =>
        if shouldPadNumbersInIndexes then String.mk (padDecimalNumber v) else stringified
    | _ => stringified
  key ++ "-" ++ stringified

/-- `getCompositeKeyValue` of `src/src/getRepository.ts`:
`[descriptor, ...properties.map(k => dynamoProperty(k, thing[k], pad))].join(separator)`. -/
def getCompositeKeyValue (thing : JsObj) (properties : List String) (descriptor : String)
    (separator : String) (shouldPadNumbersInIndexes : Bool) : String :=
  String.intercalate separator
    (descriptor :: properties.map (fun k => dynamoProperty k (thing k) shouldPadNumbersInIndexes))

/-- JavaScript `String.prototype.startsWith` (byte/char-prefix test). -/
def jsStartsWith (s p : String) : Bool := p.data.isPrefixOf s.data

/-! ## Index definitions and configuration (`src/dist/single-table-dynamo.esm.js`) -/

/-- An `Index` as produced by the configuration builder (`getPrimaryIndex`,
`getLSIIndex`, `getGSIIndex`, `getCustomGSIIndex`). -/
structure Index where
  isCustomIndex : Bool
  hashKeyFields : List String
  hashKeyDescriptor : String
  hashKeyAttribute : String
  sortKeyFields : List String
  sortKeyDescriptor : String
  sortKeyAttribute : String
  type : String
  tag : String
  indexName : Option String := none
  deriving DecidableEq, Repr

/-- One entry of the caller's `queries` configuration: the duck-typed shapes
distinguished by `isPrimaryQueryArg` / `isLSIQueryArg` / `isGSIQueryArg` /
`isCustomGSIQueryArg` in the configuration builder. -/
inductive QueryArg where
  | primary
  | lsi (which : Nat) (sortKeyFields : List String)
  | gsi (which : Nat) (hashKeyFields : List String) (sortKeyFields : List String)
  | customGsi (hashKeyAttributeName : String) (sortKeyAttributeName : String)
      (indexName : Option String)
  deriving DecidableEq, Repr

/-- Caller-supplied configuration (`ConfigArgs`), with the defaults that
`getConfig` applies. -/
structure ConfigArgs where
  objectName : String
  hashKeyFields : List String
  sortKeyFields : List String := []
  queries : List (String × QueryArg) := []
  tableName : Option String := none
  compositeKeySeparator : Option String := none
  shouldPadNumbersInIndexes : Bool := true
  deriving DecidableEq, Repr

/-- `getPrimaryIndex` of the configuration builder. -/
def getPrimaryIndex (config : ConfigArgs) (tag : String := "") : Index where
  isCustomIndex := false
  hashKeyFields := config.hashKeyFields
  hashKeyDescriptor := config.objectName
  hashKeyAttribute := "__hashKey"
  sortKeyFields := config.sortKeyFields
  sortKeyDescriptor := config.objectName
  sortKeyAttribute := "__sortKey"
  type := "primaryIndex"
  tag := tag

/-- `getLSIName` / `getLSISortKeyAttribute` of the configuration builder. -/
def getLSIName (which : Nat) : String := "__lsi" ++ String.mk (natChars which)

/-- `getGSIName` of the configuration builder. -/
def getGSIName (which : Nat) : String := "__gsi" ++ String.mk (natChars which)

/-- `getGSIAttributeName` of the configuration builder. -/
def getGSIAttributeName (which : Nat) (type : String) : String :=
  "__gsi" ++ type ++ String.mk (natChars which)

/-- `getLSIIndex` of the configuration builder. -/
def getLSIIndex (queryName : String) (which : Nat) (sortKeyFields : List String)
    (config : ConfigArgs) : Index where
  isCustomIndex := false
  hashKeyFields := config.hashKeyFields
  hashKeyDescriptor := config.objectName
  hashKeyAttribute := "__hashKey"
  sortKeyFields := sortKeyFields
  sortKeyDescriptor := queryName
  sortKeyAttribute := getLSIName which
  indexName := some (getLSIName which)
  type := "localSecondaryIndex"
  tag := queryName

/-- `getGSIIndex` of the configuration builder. -/
def getGSIIndex (queryName : String) (which : Nat) (hashKeyFields sortKeyFields : List String)
    (config : ConfigArgs) : Index where
  isCustomIndex := false
  hashKeyFields := hashKeyFields
  hashKeyDescriptor := config.objectName ++ "-" ++ queryName
  hashKeyAttribute := getGSIAttributeName which "Hash"
  sortKeyFields := sortKeyFields
  sortKeyDescriptor := queryName
  sortKeyAttribute := getGSIAttributeName which "Sort"
  indexName := some (getGSIName which)
  type := "globalSecondaryIndex"
  tag := queryName

/-- `getCustomGSIIndex` of the configuration builder. -/
def getCustomGSIIndex (queryName : String) (hashAttr sortAttr : String)
    (indexName : Option String) (config : ConfigArgs) : Index where
  isCustomIndex := true
  hashKeyFields := []
  hashKeyDescriptor := config.objectName ++ "-" ++ queryName
  hashKeyAttribute := hashAttr
  sortKeyFields := []
  sortKeyDescriptor := queryName
  sortKeyAttribute := sortAttr
  indexName := some (indexName.getD queryName)
  type := "globalSecondaryIndex"
  tag := queryName

/-- `convertQueryArgToIndex` of the configuration builder. -/
def convertQueryArgToIndex (queryName : String) (arg : QueryArg) (config : ConfigArgs) : Index :=
  match arg with
  | .primary => getPrimaryIndex config queryName
  | .lsi which sortKeyFields => getLSIIndex queryName which sortKeyFields config
  | .gsi which hashKeyFields sortKeyFields =>
      getGSIIndex queryName which hashKeyFields sortKeyFields config
  | .customGsi hashAttr sortAttr indexName =>
      getCustomGSIIndex queryName hashAttr sortAttr indexName config

/-- The built configuration (`Config`). -/
structure Config where
  tableName : String
  compositeKeySeparator : String
  shouldPadNumbersInIndexes : Bool
  objectName : String
  primaryIndex : Index
  indexes : List Index
  indexesByTag : List (String × Index)
  deriving DecidableEq, Repr

/-- Insertion into a JavaScript-object-as-map: a later write for an existing key
overrides the earlier one (used to build `indexesByTag`). -/
def assocInsert (m : List (String × Index)) (k : String) (v : Index) : List (String × Index) :=
  match m with
  | [] => [(k, v)]
  | (k', v') :: rest => if k' = k then (k, v) :: rest else (k', v') :: assocInsert rest k v

/-- Property lookup in a JavaScript-object-as-map. -/
def assocLookup (m : List (String × Index)) (k : String) : Option Index :=
  match m with
  | [] => none
  | (k', v') :: rest => if k' = k then some v' else assocLookup rest k

/-- `getConfig` of the configuration builder: the primary index first, then the
indexes converted from `queries` in declaration order; `indexesByTag` maps each
tag to its index. -/
def getConfig (args : ConfigArgs) : Config :=
  let indexes := getPrimaryIndex args ::
    args.queries.map (fun q => convertQueryArgToIndex q.1 q.2 args)
  { tableName := args.tableName.getD "SingleTable"
    compositeKeySeparator :=
      match args.compositeKeySeparator with
      | none => "#"
      | some "" => "#"
      | some s => s
    shouldPadNumbersInIndexes := args.shouldPadNumbersInIndexes
    objectName := args.objectName
    primaryIndex := getPrimaryIndex args
    indexes := indexes
    indexesByTag := indexes.foldl (fun m i => assocInsert m i.tag i) [] }

/-! ## Repository facade: keys, stored items, read results (`src/src/getRepository.ts`) -/

/-- `getKey` of `src/src/getRepository.ts`: the object
`{[i.hashKeyAttribute]: getCompositeKeyValue(id, i.hashKeyFields, ...),
  [i.sortKeyAttribute]: getCompositeKeyValue(id, i.sortKeyFields, ...)}`
(the later literal entry wins if the two attribute names coincide). -/
def getKey (id : JsObj) (i : Index) (separator : String) (shouldPadNumbersInIndexes : Bool) :
    JsObj :=
  fun a =>
    if a = i.sortKeyAttribute then
      some (.str (getCompositeKeyValue id i.sortKeyFields i.sortKeyDescriptor separator
        shouldPadNumbersInIndexes))
    else if a = i.hashKeyAttribute then
      some (.str (getCompositeKeyValue id i.hashKeyFields i.hashKeyDescriptor separator
        shouldPadNumbersInIndexes))
    else none

/-- `formatForDDB` of `src/src/getRepository.ts`: spread the object, add
`__objectType`, then spread `getKey` for every non-custom index. -/
def formatForDDB (config : Config) (thing : JsObj) : JsObj :=
  let obj0 : JsObj := fun k =>
    if k = "__objectType" then some (.str config.objectName) else thing k
  (config.indexes.filter (fun i => !i.isCustomIndex)).foldl
    (fun obj i => fun k =>
      match getKey thing i config.compositeKeySeparator config.shouldPadNumbersInIndexes k with
      | some v => some v
      | none => obj k)
    obj0

/-- `getDataFromDocument` of `src/dist/single-table-dynamo.esm.js`: copy every
property whose name does not start with `'__'`. -/
def getDataFromDocument (doc : JsObj) : JsObj :=
  fun k => if jsStartsWith k "__" then none else doc k

/-- The result mapping of `get` in `src/src/getRepository.ts`, as a function of
the store's response item: `null` when absent, else `getDataFromDocument`. -/
def repoGet (item : Option JsObj) : Option JsObj := item.map getDataFromDocument

/-- The result mapping of `executeQuery` in `src/src/getRepository.ts`:
`res.Items.map(getDataFromDocument)`. -/
def executeQueryResults (items : List JsObj) : List JsObj := items.map getDataFromDocument

/-- The result mapping of `queryOne` in `src/src/getRepository.ts`: the first
query result if any, else `null`. -/
def queryOneResult (items : List JsObj) : Option JsObj := (executeQueryResults items).head?

/-! ## Query planner (`findIndexForQuery` of `src/src/getRepository.ts`) -/

/-- A `WhereClause`. `args` is an association list (JavaScript object keys are
unique and ordered); the planner enumerates `Object.keys(where.args)`. -/
structure Where where
  sort : Option String := none
  args : List (String × JsVal) := []
  index : Option String := none
  sortBy : Option String := none
  cursor : Option (List (String × JsVal)) := none
  limit : Option Int := none

/-- JavaScript truthiness of an optional string (`undefined` and `''` are
falsy). -/
def jsTruthyStrOpt : Option String → Bool
  | none => false
  | some s => !(s == "")

/-- JavaScript truthiness of an optional value (`undefined`, `''` and `0` are
falsy). -/
def jsTruthyVal : Option JsVal → Bool
  | none => false
  | some (.str s) => !(s == "")
  | some (.num _ v) => !(v == ⟨0, []⟩)

/-- JavaScript `Array.prototype.indexOf`: index of the first occurrence, `-1`
when absent. -/
def jsIndexOf (l : List String) (s : String) : Int :=
  match l with
  | [] => -1
  | a :: rest =>
      if a = s then 0
      else
        let r := jsIndexOf rest s
        if r = -1 then -1 else r + 1

/-- The scan loop of `findIndexForQuery`: try each index in declaration order.
`neededFields` is the set of argument keys; an index is eligible when all its
hash-key fields are supplied and the first `k` sort-key fields (for `k` the
number of remaining needed fields) consume every remaining needed field; a
truthy `sortBy` must additionally sit at position `k` of `sortKeyFields`. -/
def findIndexLoop (w : Where) : List Index → Option Index
  | [] => none
  | index :: rest =>
      let neededFields := (w.args.map Prod.fst).dedup
      let queryContainsAllHashKeyFields :=
        index.hashKeyFields.all (fun k => neededFields.contains k)
      if queryContainsAllHashKeyFields then
        let needed1 := neededFields.filter (fun k => !index.hashKeyFields.contains k)
        let sortKeyFieldIndex := needed1.length
        let needed2 :=
          needed1.filter (fun k => !(index.sortKeyFields.take sortKeyFieldIndex).contains k)
        if needed2.isEmpty then
          if jsTruthyStrOpt w.sortBy then
            if jsIndexOf index.sortKeyFields (w.sortBy.getD "") = (sortKeyFieldIndex : Int) then
              some index
            else findIndexLoop w rest
          else some index
        else findIndexLoop w rest
      else findIndexLoop w rest

/-- The error message thrown for an unknown explicit index tag. -/
def unknownIndexMessage (tag : String) (config : Config) : String :=
  "The index \"" ++ tag ++ "\" does not exist, the following are valid indexes: "
    ++ String.intercalate "," (config.indexesByTag.map Prod.fst)

/-- `findIndexForQuery` of `src/src/getRepository.ts`: a truthy `where.index`
is looked up by tag (throwing when absent); otherwise the indexes are scanned
in declaration order, `null` (here `Except.ok none`) when none matches. -/
def findIndexForQuery (w : Where) (config : Config) : Except String (Option Index) :=
  if jsTruthyStrOpt w.index then
    match assocLookup config.indexesByTag (w.index.getD "") with
    | some i => .ok (some i)
    | none => .error (unknownIndexMessage (w.index.getD "") config)
  else
    .ok (findIndexLoop w config.indexes)

/-! ## Query request construction (`getQueryArgs` of `src/src/getRepository.ts`) -/

/-- Property lookup in `where.args`. -/
def argsGet (args : List (String × JsVal)) (k : String) : Option JsVal :=
  match args with
  | [] => none
  | (k', v) :: rest => if k' = k then some v else argsGet rest k

/-- JavaScript `k in thing` for `where.args`. -/
def argsHas (args : List (String × JsVal)) (k : String) : Bool :=
  args.any (fun p => p.1 == k)

/-- The field loop of `getSortkeyForBeginsWithQuery`: consume index fields left
to right, stopping at the first field absent from the object; note the source
stringifies the value (`String(thing[k])`) before `dynamoProperty`, so numbers
are never padded here. -/
def beginsWithFields (thing : List (String × JsVal)) (shouldPadNumbersInIndexes : Bool) :
    List String → List String
  | [] => []
  | k :: rest =>
      if argsHas thing k then
        dynamoProperty k (some (.str (jsString (argsGet thing k)))) shouldPadNumbersInIndexes
          :: beginsWithFields thing shouldPadNumbersInIndexes rest
      else []

/-- `getSortkeyForBeginsWithQuery` of `src/src/getRepository.ts`. -/
def getSortkeyForBeginsWithQuery (thing : List (String × JsVal)) (indexFields : List String)
    (descriptor : String) (compositeKeySeparator : String)
    (shouldPadNumbersInIndexes : Bool) : String :=
  String.intercalate compositeKeySeparator
    (descriptor :: beginsWithFields thing shouldPadNumbersInIndexes indexFields)

/-- The `{hashKey, sortKey}` pair of `getSortKeyAndHashKeyForQuery`. -/
structure KeyPair where
  hashKey : Option JsVal
  sortKey : Option JsVal

/-- `getSortKeyAndHashKeyForQuery` of `src/src/getRepository.ts`. -/
def getSortKeyAndHashKeyForQuery (config : Config) (w : Where) (index : Index) : KeyPair :=
  if index.isCustomIndex then
    { hashKey := argsGet w.args index.hashKeyAttribute
      sortKey := argsGet w.args index.sortKeyAttribute }
  else
    { hashKey := some (.str (getCompositeKeyValue (argsGet w.args) index.hashKeyFields
        index.hashKeyDescriptor config.compositeKeySeparator config.shouldPadNumbersInIndexes))
      sortKey := some (.str (getSortkeyForBeginsWithQuery w.args index.sortKeyFields
        index.sortKeyDescriptor config.compositeKeySeparator
        config.shouldPadNumbersInIndexes)) }

/-- The DynamoDB `QueryInput` fields that `getQueryArgs` populates. -/
structure QueryInput where
  TableName : String
  IndexName : Option String := none
  Limit : Int
  ScanIndexForward : Bool
  KeyConditionExpression : String
  exprAttrNames : List (String × String)
  exprAttrValues : List (String × Option JsVal)
  ExclusiveStartKey : Option (List (String × JsVal)) := none

/-- JavaScript `v || d` for an optional number (`undefined` and `0` are
falsy). -/
def jsOrNum (v : Option Int) (d : Int) : Int :=
  match v with
  | none => d
  | some n => if n = 0 then d else n

/-- `getQueryArgs` of `src/src/getRepository.ts`: in particular
`Limit: where.limit || 5`. -/
def getQueryArgs (config : Config) (w : Where) (index : Index) : QueryInput :=
  let kp := getSortKeyAndHashKeyForQuery config w index
  let sortKeyTruthy := jsTruthyVal kp.sortKey
  { TableName := config.tableName
    IndexName := index.indexName
    Limit := jsOrNum w.limit 5
    ScanIndexForward := w.sort == some "asc"
    KeyConditionExpression := "#hKeyAttribute = :hKey "
      ++ (if sortKeyTruthy then "and begins_with(#sKeyAttribute, :sKey)" else "")
    exprAttrNames := ("#hKeyAttribute", index.hashKeyAttribute)
      :: (if sortKeyTruthy then [("#sKeyAttribute", index.sortKeyAttribute)] else [])
    exprAttrValues := (":hKey", kp.hashKey)
      :: (if sortKeyTruthy then [(":sKey", kp.sortKey)] else [])
    ExclusiveStartKey := w.cursor }

/-! ## The Mapper's composite primary key (`src/src/mapper.ts`) -/

/-- A composite key field of the Mapper: a plain field name, or a
`NonStringField` rendering several source fields through `toString`. -/
inductive CompositeKeyField where
  | plain (name : String)
  | computed (fields : List String) (render : JsObj → String)

/-- `stringifyField` of `src/src/mapper.ts`. -/
def stringifyField (src : JsObj) : CompositeKeyField → Option JsVal
  | .plain name => src name
  | .computed _ render => some (.str (render src))

/-- `_computeCompositePrimaryKey` of `src/src/mapper.ts`: throws when the
partition key field is falsy (absent or empty), else joins
`[typeName, field]` with `'#'`. -/
def computeCompositePrimaryKey (typeName : String) (src : JsObj)
    (primaryField : CompositeKeyField) : Except String String :=
  let field := stringifyField src primaryField
  if !(jsTruthyVal field) then
    .error "You must provide partition key fields"
  else
    .ok (String.intercalate "#" [typeName, jsString (stringifyField src primaryField)])

/-! ## Batch planner

`batch-get.ts` / `batch-write.ts` are not in the source tree (only their tests
are), so the batch planner is modelled from the spec (§4.4), constrained by the
inline snapshots of `src/src/test/integration/batch.test.ts`. -/

/-- A stored item, as an association list of attributes. -/
def Item := List (String × JsVal)
deriving instance DecidableEq for Item

/-- A physical key, e.g. `{pk1: 'Thing#1', sk1: 'Thing'}`. -/
def KeyT := List (String × String)
deriving instance DecidableEq for KeyT

/-- Modelled from the spec: a batch get operation (`batch-get.ts` is missing):
target table, physical key, optional per-item field projection. -/
structure BatchGetOp where
  tableName : String
  key : KeyT
  fieldsToProject : Option (List String) := none
  deriving DecidableEq

/-- Modelled from the spec: the deduplication identity of a batch operation is
the `(table, physical key)` pair. -/
def identOf (op : BatchGetOp) : String × KeyT := (op.tableName, op.key)

/-- The remote store, as a partial map from `(table, key)` to items. -/
def Store := String → KeyT → Option Item

/-- Modelled from the spec: the merged projection for one identity —
the union of all requested projections, or no projection (the full item) when
any occurrence requested none. -/
def mergedProjection (ops : List BatchGetOp) (id : String × KeyT) : Option (List String) :=
  let projs := (ops.filter (fun o => identOf o = id)).map (·.fieldsToProject)
  if projs.all Option.isSome then
    some ((projs.foldr (fun p acc => p.getD [] ++ acc) []).dedup)
  else none

/-- Modelled from the spec: the projection actually dispatched for one
identity; the key attributes are always included (the snapshots of
`batch.test.ts` show `pk1`/`sk1` in projected results). -/
def dispatchProjection (ops : List BatchGetOp) (id : String × KeyT) : Option (List String) :=
  (mergedProjection ops id).map (fun fs => (fs ++ id.2.map Prod.fst).dedup)

/-- Modelled from the spec: restrict an item to a projection (`none` keeps the
full item). -/
def applyProjection (proj : Option (List String)) (item : Item) : Item :=
  match proj with
  | none => item
  | some fs => item.filter (fun p => fs.contains p.1)

/-- Modelled from the spec: the dispatch plan — one request per unique
`(table, key)` identity, in first-occurrence order, with the merged
projection. -/
def dispatchPlan (ops : List BatchGetOp) : List ((String × KeyT) × Option (List String)) :=
  (ops.map identOf).dedup.map (fun id => (id, dispatchProjection ops id))

/-- Modelled from the spec: the store's answer for one dispatched request. -/
def fetchOne (store : Store) (req : (String × KeyT) × Option (List String)) : Option Item :=
  (store req.1.1 req.1.2).map (applyProjection req.2)

/-- Modelled from the spec: the resolved responses, one per dispatched
request. -/
def batchResponses (store : Store) (ops : List BatchGetOp) :
    List ((String × KeyT) × Option Item) :=
  (dispatchPlan ops).map (fun req => (req.1, fetchOne store req))

/-- First-match lookup of a resolved response by identity. -/
def lookupResponse (rs : List ((String × KeyT) × Option Item)) (id : String × KeyT) :
    Option (Option Item) :=
  match rs with
  | [] => none
  | (id', r) :: rest => if id' = id then some r else lookupResponse rest id

/-- Modelled from the spec: `batchGet` (`batch-get.ts` is missing) —
deduplicate by identity, dispatch one request per unique identity, then
reassemble in original order: every occurrence receives the resolved result of
its identity, `none` (JavaScript `undefined`) for keys absent from the store. -/
def batchGet (store : Store) (ops : List BatchGetOp) : List (Option Item) :=
  ops.map (fun op => (lookupResponse (batchResponses store ops) (identOf op)).getD none)

/-- Modelled from the spec: a batch write operation (`batch-write.ts` is
missing): a put of a full item or a delete of a key. -/
inductive BatchWriteOp where
  | put (tableName : String) (key : KeyT) (item : Item)
  | del (tableName : String) (key : KeyT)

/-- Modelled from the spec: the deduplication identity of a batch write. -/
def identOfWrite : BatchWriteOp → String × KeyT
  | .put t k _ => (t, k)
  | .del t k => (t, k)

/-- Modelled from the spec: `batchWrite` acknowledgements — one write is
dispatched per unique identity and every occurrence receives the
acknowledgement (here: the identity it resolves) at its own position. -/
def batchWriteResults (ops : List BatchWriteOp) : List (String × KeyT) :=
  let uniques := (ops.map identOfWrite).dedup
  ops.map (fun op => (uniques.find? (fun id => id = identOfWrite op)).getD (identOfWrite op))

/-! ## Auxiliary notions for stating and proving the claims -/

/-- The object `{}`. -/
def emptyObj : JsObj := fun _ => none

/-- The README's `User` repository: primary index only, `hashKeyFields=['id']`. -/
def userConfigArgs : ConfigArgs := { objectName := "User", hashKeyFields := ["id"] }

/-- The configuration built for the `User` repository. -/
def userConfig : Config := getConfig userConfigArgs

/-- The README's object `{id: '1', name: 'jim'}`. -/
def jim : JsObj := fun k =>
  if k = "id" then some (.str "1") else if k = "name" then some (.str "jim") else none

/-- The README's `Purchase` repository: composite primary index plus one global
and one local secondary index. -/
def purchaseConfigArgs : ConfigArgs where
  objectName := "Purchase"
  hashKeyFields := ["userId"]
  sortKeyFields := ["itemId", "id"]
  queries :=
    [("getPurchasersOfItem", .gsi 0 ["itemId"] ["purchaseDate", "userId"]),
     ("latestPurchases", .lsi 1 ["purchaseDate", "itemId"])]

/-- The configuration built for the `Purchase` repository. -/
def purchaseConfig : Config := getConfig purchaseConfigArgs

/-- The physical key `{pk1: 'Thing#1', sk1: 'Thing'}` of `batch.test.ts`. -/
def K1 : KeyT := [("pk1", "Thing#1"), ("sk1", "Thing")]

/-- The physical key `{pk1: 'Thing#5', sk1: 'Thing'}` (never written). -/
def K5 : KeyT := [("pk1", "Thing#5"), ("sk1", "Thing")]

/-- The stored item for key `K1` (as in `batch.test.ts`). -/
def item1 : Item :=
  [("id", .str "1"), ("name", .str "yes"), ("pk1", .str "Thing#1"), ("sk1", .str "Thing")]

/-- A store holding exactly `item1` under `('table1', K1)`. -/
def storeEx : Store := fun t k => if t = "table1" ∧ k = K1 then some item1 else none

/-- Batch get operations with a duplicate key and one absent key. -/
def opsEx : List BatchGetOp :=
  [⟨"table1", K1, none⟩, ⟨"table1", K5, none⟩, ⟨"table1", K1, none⟩]

/-- The same key requested twice with different projections
(`batch.test.ts`, 'should merge fields to project'). -/
def opsC3 : List BatchGetOp :=
  [⟨"table1", K1, some ["id"]⟩, ⟨"table1", K1, some ["name"]⟩]

/-- A stored document with internal (`__`-prefixed) attributes. -/
def docEx : JsObj := fun k =>
  if k = "__objectType" then some (.str "User")
  else if k = "__hashKey" then some (.str "User#id-1")
  else if k = "name" then some (.str "jim") else none

/-- The spec's scenario query `{args: {userId: 'creed'}}`. -/
def creedWhere : Where := { args := [("userId", JsVal.str "creed")] }

/-- A query with a hash key, one sort-prefix field and a `sortBy`. -/
def creedSortWhere : Where :=
  { args := [("userId", JsVal.str "creed"), ("itemId", JsVal.str "couch")],
    sortBy := some "id" }

/-- A query addressing an explicit index tag while supplying no arguments. -/
def explicitGsiWhere : Where := { index := some "getPurchasersOfItem", args := [] }

/-- A query addressing the explicit (existing) empty tag `''`. -/
def emptyTagWhere : Where := { index := some "", args := [] }

/-- A query addressing the explicit tag `'latestPurchases'` with no
arguments. -/
def latestWhere : Where := { index := some "latestPurchases", args := [] }

/-- A query whose `sortBy` is set to the empty string (falsy in JavaScript). -/
def emptySortByWhere : Where := { args := [("userId", JsVal.str "creed")], sortBy := some "" }

/-! ## Helper lemmas: decimal digits and byte-wise ordering -/

theorem jsIndexOf_neg_or_nonneg : ∀ (l : List String) (s : String),
    jsIndexOf l s = -1 ∨ 0 ≤ jsIndexOf l s := by
  intro l s
  induction l with
  | nil => left; rfl
  | cons a rest ih =>
    simp only [jsIndexOf]
    split
    · right; omega
    · rcases ih with h | h
      · rw [if_pos h]; left; rfl
      · rw [if_neg (by omega)]; right; omega

theorem jsIndexOf_get? : ∀ (l : List String) (s : String) (n : Nat),
    jsIndexOf l s = (n : Int) → l.get? n = some s := by
  intro l
  induction l with
  | nil =>
    intro s n h
    simp only [jsIndexOf] at h
    omega
  | cons a rest ih =>
    intro s n h
    simp only [jsIndexOf] at h
    split at h
    · rename_i ha
      have : n = 0 := by omega
      subst this
      simp [ha]
    · rcases jsIndexOf_neg_or_nonneg rest s with hr | hr
      · rw [if_pos hr] at h
        omega
      · rw [if_neg (by omega)] at h
        obtain ⟨m, hm⟩ : ∃ m : Nat, jsIndexOf rest s = (m : Int) :=
          ⟨(jsIndexOf rest s).toNat, by omega⟩
        have hn : n = m + 1 := by omega
        subst hn
        simpa using ih s m hm

theorem findIndexLoop_spec : ∀ (idxs : List Index) (w : Where) (idx : Index),
    findIndexLoop w idxs = some idx →
    (idx.hashKeyFields.all (fun k => ((w.args.map Prod.fst).dedup).contains k) = true) ∧
    ((((w.args.map Prod.fst).dedup).filter (fun k => !idx.hashKeyFields.contains k)).filter
        (fun k => !(idx.sortKeyFields.take
          (((w.args.map Prod.fst).dedup).filter
            (fun k => !idx.hashKeyFields.contains k)).length).contains k)).isEmpty = true ∧
    (jsTruthyStrOpt w.sortBy = true →
      jsIndexOf idx.sortKeyFields (w.sortBy.getD "")
        = ((((w.args.map Prod.fst).dedup).filter
            (fun k => !idx.hashKeyFields.contains k)).length : Int)) := by
  intro idxs
  induction idxs with
  | nil => intro w idx h; simp [findIndexLoop] at h
  | cons index rest ih =>
    intro w idx h
    simp only [findIndexLoop] at h
    split at h
    · split at h
      · split at h
        · split at h
          · obtain rfl : index = idx := Option.some.inj h
            refine ⟨by assumption, by assumption, fun _ => by assumption⟩
          · exact ih w idx h
        · obtain rfl : index = idx := Option.some.inj h
          rename_i hsort
          refine ⟨by assumption, by assumption, fun hc => absurd hc (by simp [hsort])⟩
      · exact ih w idx h
    · exact ih w idx h

/-! ## Claims C6, C7, C8: query planner -/

/-- C6 counterexample: with an explicit `where.index`, `findIndexForQuery`
returns the tagged index even though none of its `hashKeyFields` appears among
the argument keys — the claim's universal statement over *every* where clause
fails on the explicit-index path. -/
theorem findIndexForQuery_explicit_ignores_args :
    findIndexForQuery explicitGsiWhere purchaseConfig
      = .ok (some (getGSIIndex "getPurchasersOfItem" 0 ["itemId"] ["purchaseDate", "userId"]
          purchaseConfigArgs)) ∧
    (getGSIIndex "getPurchasersOfItem" 0 ["itemId"] ["purchaseDate", "userId"]
        purchaseConfigArgs).hashKeyFields = ["itemId"] ∧
    explicitGsiWhere.args.map Prod.fst = [] := by
  refine ⟨by decide, by decide, by decide⟩

/-- C6 (amended to automatic resolution): whenever `findIndexForQuery` resolves
an index *automatically* (no truthy `where.index`), every field of the returned
index's `hashKeyFields` is a key of `where.args`. -/
theorem findIndexForQuery_auto_hash_subset (w : Where) (config : Config) (idx : Index)
    (hidx : jsTruthyStrOpt w.index = false)
    (h : findIndexForQuery w config = .ok (some idx)) :
    ∀ f ∈ idx.hashKeyFields, f ∈ w.args.map Prod.fst := by
  intro f hf
  rw [findIndexForQuery, if_neg (by simp [hidx])] at h
  have h2 : findIndexLoop w config.indexes = some idx := by
    simpa using h
  have hs := (findIndexLoop_spec _ w idx h2).1
  rw [List.all_eq_true] at hs
  have hc := hs f hf
  have hmem : f ∈ (w.args.map Prod.fst).dedup := by simpa using hc
  exact List.mem_dedup.mp hmem

/-- C6 witness: the spec's scenario `args={userId:'creed'}` resolves to the
`Purchase` primary index, and `userId` is indeed among the argument keys. -/
theorem findIndexForQuery_auto_hash_subset_witness :
    jsTruthyStrOpt creedWhere.index = false ∧
    findIndexForQuery creedWhere purchaseConfig
      = .ok (some (getPrimaryIndex purchaseConfigArgs)) ∧
    "userId" ∈ creedWhere.args.map Prod.fst :=
  ⟨by decide, by decide,
    findIndexForQuery_auto_hash_subset creedWhere
      purchaseConfig (getPrimaryIndex purchaseConfigArgs) (by decide) (by decide)
      "userId" (by decide)⟩

/-- C7 counterexample: a where clause with `sortBy` *set* to `''` is falsy in
JavaScript, so automatic resolution skips the position check entirely: the
planner accepts the `Purchase` primary index although `''` is nowhere in its
sort-key sequence (`indexOf` is `-1`, not the next position `0`) — refuting the
claim over every where clause that specifies `sortBy`. -/
theorem findIndexForQuery_empty_sortBy_accepts :
    emptySortByWhere.sortBy = some "" ∧
    findIndexForQuery emptySortByWhere purchaseConfig
      = .ok (some (getPrimaryIndex purchaseConfigArgs)) ∧
    (((emptySortByWhere.args.map Prod.fst).dedup).filter
      (fun k => !(getPrimaryIndex purchaseConfigArgs).hashKeyFields.contains k)).length = 0 ∧
    jsIndexOf (getPrimaryIndex purchaseConfigArgs).sortKeyFields "" = -1 ∧
    (getPrimaryIndex purchaseConfigArgs).sortKeyFields.get? 0 ≠ some "" := by
  refine ⟨rfl, by decide, by decide, by decide, by decide⟩

/-- C7 (amended to non-empty `sortBy`): when automatic resolution accepts an
index for a where clause whose `sortBy` is a *non-empty* string, `sortBy` sits
at exactly the position of `sortKeyFields` immediately after the `k` fields
consumed by hash- and sort-prefix matching (`k` = number of distinct argument
keys that are not hash-key fields), and all `k` consumed sort-prefix fields are
argument keys.  (A `sortBy` of `''` is falsy and is ignored: the index is
accepted without any position check.) -/
theorem findIndexForQuery_sortBy_next_position (w : Where) (config : Config) (idx : Index)
    (sb : String) (hidx : jsTruthyStrOpt w.index = false) (hsb : w.sortBy = some sb)
    (hne : sb ≠ "") (h : findIndexForQuery w config = .ok (some idx)) :
    idx.sortKeyFields.get?
        ((((w.args.map Prod.fst).dedup).filter (fun k => !idx.hashKeyFields.contains k)).length)
      = some sb ∧
    ∀ f ∈ idx.sortKeyFields.take
        ((((w.args.map Prod.fst).dedup).filter (fun k => !idx.hashKeyFields.contains k)).length),
      f ∈ w.args.map Prod.fst := by
  rw [findIndexForQuery, if_neg (by simp [hidx])] at h
  have h2 : findIndexLoop w config.indexes = some idx := by
    simpa using h
  obtain ⟨h1, hEmpty, hSort⟩ := findIndexLoop_spec _ w idx h2
  have hTruthy : jsTruthyStrOpt w.sortBy = true := by
    rw [hsb]
    simp [jsTruthyStrOpt, hne]
  have hIdx := hSort hTruthy
  rw [hsb] at hIdx
  constructor
  · exact jsIndexOf_get? _ _ _ (by simpa using hIdx)
  · intro f hf
    have hnodup :
        (((w.args.map Prod.fst).dedup).filter (fun k => !idx.hashKeyFields.contains k)).Nodup :=
      (List.nodup_dedup _).filter _
    rw [List.isEmpty_iff] at hEmpty
    have hsub : ∀ x ∈ ((w.args.map Prod.fst).dedup).filter
        (fun k => !idx.hashKeyFields.contains k),
        x ∈ idx.sortKeyFields.take
          ((((w.args.map Prod.fst).dedup).filter
            (fun k => !idx.hashKeyFields.contains k)).length) := by
      intro x hx
      by_contra hcmem
      have hxmem : x ∈ (((w.args.map Prod.fst).dedup).filter
          (fun k => !idx.hashKeyFields.contains k)).filter
          (fun k => !(idx.sortKeyFields.take
            ((((w.args.map Prod.fst).dedup).filter
              (fun k => !idx.hashKeyFields.contains k)).length)).contains k) := by
        apply List.mem_filter_of_mem hx
        simpa using hcmem
      rw [hEmpty] at hxmem
      simp at hxmem
    have h1sub : (((w.args.map Prod.fst).dedup).filter
        (fun k => !idx.hashKeyFields.contains k)).toFinset ⊆
        (idx.sortKeyFields.take
          ((((w.args.map Prod.fst).dedup).filter
            (fun k => !idx.hashKeyFields.contains k)).length)).toFinset := by
      intro x hx
      rw [List.mem_toFinset] at hx ⊢
      exact hsub x hx
    have hcard1 := List.toFinset_card_of_nodup hnodup
    have hcard2 : (idx.sortKeyFields.take
        ((((w.args.map Prod.fst).dedup).filter
          (fun k => !idx.hashKeyFields.contains k)).length)).toFinset.card ≤
        (((w.args.map Prod.fst).dedup).filter
          (fun k => !idx.hashKeyFields.contains k)).length := by
      calc (idx.sortKeyFields.take
            ((((w.args.map Prod.fst).dedup).filter
              (fun k => !idx.hashKeyFields.contains k)).length)).toFinset.card
          ≤ (idx.sortKeyFields.take
            ((((w.args.map Prod.fst).dedup).filter
              (fun k => !idx.hashKeyFields.contains k)).length)).length :=
            List.toFinset_card_le _
        _ ≤ _ := by simp [List.length_take]
    have heq := Finset.eq_of_subset_of_card_le h1sub (by omega)
    have hfmem : f ∈ ((w.args.map Prod.fst).dedup).filter
        (fun k => !idx.hashKeyFields.contains k) := by
      rw [← List.mem_toFinset, ← heq, List.mem_toFinset] at hf
      exact hf
    exact List.mem_dedup.mp (List.mem_of_mem_filter hfmem)

/-- C7 witness: `Purchase` query `{userId, itemId}` with `sortBy: 'id'`
resolves to the primary index, whose sort-key sequence has `'id'` at position 1
(right after the consumed `itemId`). -/
theorem findIndexForQuery_sortBy_next_position_witness :
    findIndexForQuery creedSortWhere purchaseConfig
      = .ok (some (getPrimaryIndex purchaseConfigArgs)) ∧
    (getPrimaryIndex purchaseConfigArgs).sortKeyFields.get?
        (((creedSortWhere.args.map Prod.fst).dedup).filter
          (fun k => !(getPrimaryIndex purchaseConfigArgs).hashKeyFields.contains k)).length
      = some "id" :=
  ⟨by decide,
    (findIndexForQuery_sortBy_next_position creedSortWhere
      purchaseConfig (getPrimaryIndex purchaseConfigArgs) "id"
      (by decide) rfl (by decide) (by decide)).1⟩

/-- C8 counterexample: the default primary tag is `''`, so the tag `''` exists
in the directory; but `where.index = ''` is falsy in JavaScript, so the planner
runs automatic resolution and (with no arguments) reports no match instead of
returning the tagged index. -/
theorem findIndexForQuery_empty_tag_counterexample :
    assocLookup userConfig.indexesByTag "" = some (getPrimaryIndex userConfigArgs) ∧
    findIndexForQuery emptyTagWhere userConfig = .ok none := by
  refine ⟨by decide, by decide⟩

/-- C8 (amended to non-empty tags): a where clause whose `index` is a
*non-empty* tag short-circuits automatic resolution — if the tag is in the
directory that index is returned regardless of `args`, and otherwise the
planner throws the message listing the valid tags. -/
theorem findIndexForQuery_explicit_tag (w : Where) (config : Config) (t : String)
    (ht : w.index = some t) (hne : t ≠ "") :
    (∀ i, assocLookup config.indexesByTag t = some i →
      findIndexForQuery w config = .ok (some i)) ∧
    (assocLookup config.indexesByTag t = none →
      findIndexForQuery w config = .error (unknownIndexMessage t config)) := by
  have htruthy : jsTruthyStrOpt w.index = true := by
    rw [ht]
    simp [jsTruthyStrOpt, hne]
  constructor
  · intro i hi
    rw [findIndexForQuery, if_pos htruthy, ht]
    simp [hi]
  · intro hnone
    rw [findIndexForQuery, if_pos htruthy, ht]
    simp [hnone]

/-- C8 witness: the explicit tag `'latestPurchases'` returns the LSI index even
with empty `args`. -/
theorem findIndexForQuery_explicit_tag_witness :
    findIndexForQuery latestWhere purchaseConfig
      = .ok (some (getLSIIndex "latestPurchases" 1 ["purchaseDate", "itemId"]
          purchaseConfigArgs)) :=
  (findIndexForQuery_explicit_tag latestWhere
    purchaseConfig "latestPurchases" rfl (by decide)).1 _ (by decide)

/-! ## Claims C9, C10, C4, C5, C2, C1, C3 -/


/-- C9 -/
theorem getQueryArgs_default_limit (config : Config) (w : Where) (index : Index) :
    (w.limit = none → (getQueryArgs config w index).Limit = 5) ∧
    (w.limit = some 0 → (getQueryArgs config w index).Limit = 5) ∧
    (∀ n : Int, w.limit = some n → n ≠ 0 → (getQueryArgs config w index).Limit = n) := by
  refine ⟨fun h => ?_, fun h => ?_, fun n h hn => ?_⟩ <;>
    simp [getQueryArgs, jsOrNum, h]
  intro hc
  exact absurd hc hn

/-- C9 witness -/
theorem getQueryArgs_default_limit_witness :
    creedWhere.limit = none ∧
    (getQueryArgs purchaseConfig creedWhere (getPrimaryIndex purchaseConfigArgs)).Limit = 5 :=
  ⟨rfl, (getQueryArgs_default_limit purchaseConfig creedWhere
    (getPrimaryIndex purchaseConfigArgs)).1 rfl⟩

/-- C10 -/
theorem readResults_no_internal_attributes (k : String) (hk : jsStartsWith k "__" = true) :
    (∀ (item : Option JsObj) (o : JsObj), repoGet item = some o → o k = none) ∧
    (∀ (items : List JsObj) (o : JsObj), o ∈ executeQueryResults items → o k = none) ∧
    (∀ (items : List JsObj) (o : JsObj), queryOneResult items = some o → o k = none) := by
  have key : ∀ doc : JsObj, getDataFromDocument doc k = none := by
    intro doc
    simp [getDataFromDocument, hk]
  refine ⟨?_, ?_, ?_⟩
  · intro item o h
    cases item with
    | none => simp [repoGet] at h
    | some doc =>
      obtain rfl : getDataFromDocument doc = o := by simpa [repoGet] using h
      exact key doc
  · intro items o h
    simp only [executeQueryResults, List.mem_map] at h
    obtain ⟨doc, _, rfl⟩ := h
    exact key doc
  · intro items o h
    cases hq : executeQueryResults items with
    | nil =>
      rw [queryOneResult, hq] at h
      simp at h
    | cons a rest =>
      rw [queryOneResult, hq] at h
      obtain rfl : a = o := by simpa using h
      have hmem : a ∈ executeQueryResults items := by
        rw [hq]
        exact List.mem_cons_self a rest
      simp only [executeQueryResults, List.mem_map] at hmem
      obtain ⟨doc, _, rfl⟩ := hmem
      exact key doc

/-- C10 witness -/
theorem readResults_no_internal_attributes_witness :
    jsStartsWith "__objectType" "__" = true ∧
    repoGet (some docEx) = some (getDataFromDocument docEx) ∧
    getDataFromDocument docEx "__objectType" = none :=
  ⟨by decide, rfl,
    (readResults_no_internal_attributes "__objectType" (by decide)).1 (some docEx) _ rfl⟩

/-- C4 counterexample -/
theorem getCompositeKeyValue_undefined_placeholder :
    getCompositeKeyValue emptyObj ["id"] "User" "#" true = "User#id-undefined" ∧
    emptyObj "id" = none :=
  ⟨by decide, rfl⟩

/-- C4 (amended) -/
theorem computeCompositePrimaryKey_missing_field (typeName : String) (src : JsObj)
    (f : CompositeKeyField) (h : jsTruthyVal (stringifyField src f) = false) :
    computeCompositePrimaryKey typeName src f
      = .error "You must provide partition key fields" := by
  simp [computeCompositePrimaryKey, h]

/-- C4 witness -/
theorem computeCompositePrimaryKey_missing_field_witness :
    jsTruthyVal (stringifyField emptyObj (.plain "id")) = false ∧
    computeCompositePrimaryKey "User" emptyObj (.plain "id")
      = .error "You must provide partition key fields" :=
  ⟨rfl, computeCompositePrimaryKey_missing_field "User" emptyObj (.plain "id") rfl⟩



/-- C2 counterexample -/
theorem formatForDDB_sortKey_attribute_present :
    userConfigArgs.sortKeyFields = [] ∧
    formatForDDB userConfig jim "__hashKey" = some (.str "User#id-1") ∧
    formatForDDB userConfig jim "__sortKey" = some (.str "User") :=
  ⟨rfl, by decide, by decide⟩

/-- C2 (amended) -/
theorem formatForDDB_empty_sortKeyFields (args : ConfigArgs) (thing : JsObj)
    (hq : args.queries = []) (hs : args.sortKeyFields = []) :
    formatForDDB (getConfig args) thing "__hashKey"
      = some (.str (getCompositeKeyValue thing args.hashKeyFields args.objectName
          (getConfig args).compositeKeySeparator args.shouldPadNumbersInIndexes)) ∧
    formatForDDB (getConfig args) thing "__sortKey" = some (.str args.objectName) := by
  have hidx : (getConfig args).indexes = [getPrimaryIndex args] := by
    simp [getConfig, hq]
  have h2 : getCompositeKeyValue thing (getPrimaryIndex args).sortKeyFields
      (getPrimaryIndex args).sortKeyDescriptor (getConfig args).compositeKeySeparator
      (getConfig args).shouldPadNumbersInIndexes = args.objectName := by
    rw [show (getPrimaryIndex args).sortKeyFields = args.sortKeyFields from rfl, hs]
    rfl
  constructor
  · rw [formatForDDB, hidx]
    rfl
  · calc formatForDDB (getConfig args) thing "__sortKey"
        = some (.str (getCompositeKeyValue thing (getPrimaryIndex args).sortKeyFields
            (getPrimaryIndex args).sortKeyDescriptor (getConfig args).compositeKeySeparator
            (getConfig args).shouldPadNumbersInIndexes)) := by
          rw [formatForDDB, hidx]
          rfl
      _ = some (.str args.objectName) := by rw [h2]



/-- C2 witness -/
theorem formatForDDB_empty_sortKeyFields_witness :
    formatForDDB userConfig jim "__hashKey"
      = some (.str (getCompositeKeyValue jim ["id"] "User"
          userConfig.compositeKeySeparator true)) ∧
    formatForDDB userConfig jim "__sortKey" = some (.str "User") := by
  have h := formatForDDB_empty_sortKeyFields userConfigArgs jim rfl rfl
  exact ⟨h.1, h.2⟩

theorem lookupResponse_map (f : (String × KeyT) → Option Item) :
    ∀ (l : List (String × KeyT)) (id : String × KeyT), id ∈ l →
      lookupResponse (l.map (fun i => (i, f i))) id = some (f id) := by
  intro l
  induction l with
  | nil => intro id h; simp at h
  | cons a rest ih =>
    intro id h
    simp only [List.map_cons, lookupResponse]
    by_cases ha : a = id
    · subst ha; simp
    · rw [if_neg ha]
      rcases List.mem_cons.mp h with h1 | h1
      · exact absurd h1.symm ha
      · exact ih id h1

theorem batchResponses_eq (store : Store) (ops : List BatchGetOp) :
    batchResponses store ops = ((ops.map identOf).dedup).map
      (fun id => (id, fetchOne store (id, dispatchProjection ops id))) := by
  rw [batchResponses, dispatchPlan, List.map_map]
  rfl

/-- C1 -/
theorem batch_order_invariant (store : Store) (ops : List BatchGetOp) :
    ((batchGet store ops).length = ops.length) ∧
    (∀ (i : Nat) (op : BatchGetOp), ops.get? i = some op →
      (batchGet store ops).get? i
        = some (fetchOne store (identOf op, dispatchProjection ops (identOf op))) ∧
      (store op.tableName op.key = none → (batchGet store ops).get? i = some none)) ∧
    (∀ (wops : List BatchWriteOp), (batchWriteResults wops).length = wops.length ∧
      ∀ (i : Nat) (op : BatchWriteOp), wops.get? i = some op →
        (batchWriteResults wops).get? i = some (identOfWrite op)) := by
  refine ⟨by simp [batchGet], ?_, ?_⟩
  · intro i op hop
    have hmem : identOf op ∈ (ops.map identOf).dedup :=
      List.mem_dedup.mpr (List.mem_map_of_mem _ (List.get?_mem hop))
    have hlook : lookupResponse (batchResponses store ops) (identOf op)
        = some (fetchOne store (identOf op, dispatchProjection ops (identOf op))) := by
      rw [batchResponses_eq]
      exact lookupResponse_map _ _ _ hmem
    have hpos : (batchGet store ops).get? i
        = some (fetchOne store (identOf op, dispatchProjection ops (identOf op))) := by
      rw [batchGet, List.get?_map, hop]
      simp [hlook]
    refine ⟨hpos, fun hstore => ?_⟩
    rw [hpos]
    have : fetchOne store (identOf op, dispatchProjection ops (identOf op)) = none := by
      simp [fetchOne, identOf, hstore]
    rw [this]
  · intro wops
    refine ⟨by simp [batchWriteResults], ?_⟩
    intro i op hop
    simp only [batchWriteResults, List.get?_map, hop, Option.map_some']
    rcases hfind : ((wops.map identOfWrite).dedup).find? (fun id => id = identOfWrite op)
      with _ | x
    · simp
    · have := List.find?_some hfind
      have hx : x = identOfWrite op := by simpa using this
      simp [hx]

/-- C1 witness -/
theorem batch_order_invariant_witness :
    opsEx.get? 1 = some ⟨"table1", K5, none⟩ ∧
    storeEx "table1" K5 = none ∧
    (batchGet storeEx opsEx).get? 1 = some none :=
  ⟨by decide, by decide,
    ((batch_order_invariant storeEx opsEx).2.1 1 ⟨"table1", K5, none⟩ (by decide)).2 (by decide)⟩



/-- C3 counterexample -/
theorem batchGet_result_exceeds_own_projection :
    opsC3.get? 0 = some ⟨"table1", K1, some ["id"]⟩ ∧
    (batchGet storeEx opsC3).get? 0 = some (some item1) ∧
    "name" ∈ item1.map Prod.fst ∧ "name" ∉ (["id"] : List String) :=
  ⟨by decide, by decide, by decide, by decide⟩

theorem countP_eq_one_of_nodup : ∀ (l : List (String × KeyT)), l.Nodup →
    ∀ a ∈ l, l.countP (fun x => decide (x = a)) = 1 := by
  intro l
  induction l with
  | nil => intro _ a h; simp at h
  | cons b rest ih =>
    intro hnd a ha
    rw [List.countP_cons]
    rcases List.mem_cons.mp ha with rfl | hmem
    · have hb : rest.countP (fun x => decide (x = a)) = 0 := by
        rw [List.countP_eq_zero]
        intro x hx
        simp only [decide_eq_true_eq]
        intro hxa
        subst hxa
        exact (List.nodup_cons.mp hnd).1 hx
      simp [hb]
    · have hba : decide (b = a) = false := by
        simp only [decide_eq_false_iff_not]
        intro hba
        subst hba
        exact (List.nodup_cons.mp hnd).1 hmem
      rw [ih (List.nodup_cons.mp hnd).2 a hmem, hba]
      simp

theorem mem_foldr_getD_append : ∀ (projs : List (Option (List String)))
    (fs : List String) (f : String), some fs ∈ projs → f ∈ fs →
    f ∈ projs.foldr (fun p acc => p.getD [] ++ acc) [] := by
  intro projs
  induction projs with
  | nil => intro fs f h _; simp at h
  | cons p rest ih =>
    intro fs f h hf
    simp only [List.foldr_cons, List.mem_append]
    rcases List.mem_cons.mp h with rfl | hmem
    · left; simpa using hf
    · right; exact ih fs f hmem hf

/-- C3 (amended) -/
theorem batchGet_merged_projection (store : Store) (ops : List BatchGetOp) (i : Nat)
    (op : BatchGetOp) (hop : ops.get? i = some op) :
    ((dispatchPlan ops).countP (fun e => decide (e.1 = identOf op)) = 1) ∧
    ((batchGet store ops).get? i
      = some (fetchOne store (identOf op, dispatchProjection ops (identOf op)))) ∧
    (∀ fs, op.fieldsToProject = some fs →
      dispatchProjection ops (identOf op) = none ∨
      ∃ gs, dispatchProjection ops (identOf op) = some gs ∧ ∀ f ∈ fs, f ∈ gs) := by
  have hmem : identOf op ∈ (ops.map identOf).dedup :=
    List.mem_dedup.mpr (List.mem_map_of_mem _ (List.get?_mem hop))
  refine ⟨?_, ?_, ?_⟩
  · rw [dispatchPlan, List.countP_map]
    exact countP_eq_one_of_nodup _ (List.nodup_dedup _) _ hmem
  · have hlook : lookupResponse (batchResponses store ops) (identOf op)
        = some (fetchOne store (identOf op, dispatchProjection ops (identOf op))) := by
      rw [batchResponses_eq]
      exact lookupResponse_map _ _ _ hmem
    rw [batchGet, List.get?_map, hop]
    simp [hlook]
  · intro fs hfs
    rw [dispatchProjection, mergedProjection]
    by_cases hall : (((ops.filter (fun o => decide (identOf o = identOf op))).map
        (fun o => o.fieldsToProject)).all Option.isSome) = true
    · rw [if_pos hall]
      right
      refine ⟨_, rfl, ?_⟩
      intro f hf
      have hopmem : op ∈ ops.filter (fun o => decide (identOf o = identOf op)) :=
        List.mem_filter_of_mem (List.get?_mem hop) (by simp)
      have hproj : some fs ∈ (ops.filter (fun o => decide (identOf o = identOf op))).map
          (fun o => o.fieldsToProject) := by
        rw [← hfs]
        exact List.mem_map_of_mem _ hopmem
      have hfold := mem_foldr_getD_append _ fs f hproj hf
      have : f ∈ (((ops.filter (fun o => decide (identOf o = identOf op))).map
          (fun o => o.fieldsToProject)).foldr (fun p acc => p.getD [] ++ acc) []).dedup :=
        List.mem_dedup.mpr hfold
      exact List.mem_dedup.mpr (List.mem_append_left _ this)
    · rw [if_neg hall]
      left
      rfl

/-- C3 witness -/
theorem batchGet_merged_projection_witness :
    opsC3.get? 0 = some ⟨"table1", K1, some ["id"]⟩ ∧
    (dispatchPlan opsC3).countP
      (fun e => decide (e.1 = identOf ⟨"table1", K1, some ["id"]⟩)) = 1 ∧
    (batchGet storeEx opsC3).get? 0
      = some (fetchOne storeEx (identOf ⟨"table1", K1, some ["id"]⟩,
          dispatchProjection opsC3 (identOf ⟨"table1", K1, some ["id"]⟩))) :=
  ⟨by decide,
    (batchGet_merged_projection storeEx opsC3 0 ⟨"table1", K1, some ["id"]⟩ (by decide)).1,
    (batchGet_merged_projection storeEx opsC3 0 ⟨"table1", K1, some ["id"]⟩ (by decide)).2.1⟩


end STD
